/-
Verification of the Fit-File-to-Calories-Burnt core pipeline.

Shallow embedding of the repository's core modules over exact rational
arithmetic (Python floats are modelled by ℚ; `datetime` timestamps are
modelled by a rational number of seconds, so that
`(curr - prev).total_seconds() / 60.0` becomes `(curr - prev) / 60`):

  * `src/src/core/utils.py` — the Keytel formula engine and the Karvonen
    zone calculator;
  * `src/src/validators/input_validator.py` — input validation, the data
    integrity audit and the quality score;
  * `src/src/services/fit_processor.py` — heart-rate extraction and the
    calorie integration loop;
  * `src/src/models/fit_data.py` — the `CalorieData` dataclass checks and
    `calculate_total_duration`.

Raising a Python exception is modelled by `Except.error`; the error
strings follow the messages in the source.
-/

import Mathlib

set_option linter.unusedVariables false

namespace FitCalories

/-- Gender as accepted by `validate_gender`: the only two values that
survive validation are `"male"` and `"female"`. -/
inductive Gender where
  | male : Gender
  | female : Gender
deriving DecidableEq, Repr

/-- The per-gender coefficient set of the Keytel formula
(`MALE_CONSTANTS` / `FEMALE_CONSTANTS` in `src/src/core/utils.py`). -/
structure KeytelConstants where
  base : ℚ
  hr_coef : ℚ
  weight_coef : ℚ
  age_coef : ℚ
  conversion : ℚ
deriving DecidableEq, Repr

/-- Embeds `MALE_CONSTANTS` from `src/src/core/utils.py`. -/
def MALE_CONSTANTS : KeytelConstants :=
  { base := -55.0969
    hr_coef := 0.6309
    weight_coef := 0.1988
    age_coef := 0.2017
    conversion := 4.184 }

/-- Embeds `FEMALE_CONSTANTS` from `src/src/core/utils.py`. -/
def FEMALE_CONSTANTS : KeytelConstants :=
  { base := -20.4022
    hr_coef := 0.4472
    weight_coef := -0.1263
    age_coef := 0.074
    conversion := 4.184 }

/-- The coefficient-set dispatch
`FEMALE_CONSTANTS if gender.lower() == 'female' else MALE_CONSTANTS`. -/
def constantsFor : Gender → KeytelConstants
  | Gender.male => MALE_CONSTANTS
  | Gender.female => FEMALE_CONSTANTS

/-- Embeds `calculate_kcal_per_min` from `src/src/core/utils.py`. -/
def calculate_kcal_per_min (hr weight age : ℚ) (gender : Gender) : ℚ :=
  let c := constantsFor gender
  (c.base + c.hr_coef * hr + c.weight_coef * weight + c.age_coef * age) / c.conversion

/-- Embeds `calories_burned` from `src/src/core/utils.py`. -/
def calories_burned (hr duration_minutes weight age : ℚ) (gender : Gender) : ℚ :=
  calculate_kcal_per_min hr weight age gender * duration_minutes

/-- Embeds `calculate_heart_rate` from `src/src/core/utils.py`: solves the Keytel
equation for the heart rate. -/
def calculate_heart_rate (kcal_per_min weight age : ℚ) (gender : Gender) : ℚ :=
  let c := constantsFor gender
  (c.conversion * kcal_per_min - c.base - c.weight_coef * weight - c.age_coef * age) / c.hr_coef

/-- Embeds `calculate_weight` from `src/src/core/utils.py`: solves the Keytel
equation for the weight. -/
def calculate_weight (kcal_per_min heart_rate age : ℚ) (gender : Gender) : ℚ :=
  let c := constantsFor gender
  (c.conversion * kcal_per_min - c.base - c.hr_coef * heart_rate - c.age_coef * age) / c.weight_coef

/-- Embeds `calculate_age` from `src/src/core/utils.py`: solves the Keytel
equation for the age. -/
def calculate_age (kcal_per_min heart_rate weight : ℚ) (gender : Gender) : ℚ :=
  let c := constantsFor gender
  (c.conversion * kcal_per_min - c.base - c.hr_coef * heart_rate - c.weight_coef * weight) / c.age_coef

/-- One `(timestamp, heart_rate)` tuple as passed around by
`fit_processor.py`.  `ts` is the timestamp as a rational number of
seconds; `hr` is the heart-rate value. -/
structure Sample where
  ts : ℚ
  hr : ℚ
deriving DecidableEq, Repr

instance : Inhabited Sample := ⟨⟨0, 0⟩⟩

/-- The comparison used by `sorted(heart_rate_data, key=lambda x: x[0])`:
order samples by timestamp. -/
def tsLe (a b : Sample) : Prop := a.ts ≤ b.ts

instance : DecidableRel tsLe := fun a b => inferInstanceAs (Decidable (a.ts ≤ b.ts))

instance : IsTotal Sample tsLe := ⟨fun a b => le_total a.ts b.ts⟩

instance : IsTrans Sample tsLe := ⟨fun _ _ _ h1 h2 => le_trans h1 h2⟩

instance : IsRefl Sample tsLe := ⟨fun a => le_refl a.ts⟩

/-- Python's `sorted(data, key=lambda x: x[0])`: a stable ascending sort by
timestamp, modelled by insertion sort (which is stable). -/
def sortByTs (l : List Sample) : List Sample := List.insertionSort tsLe l

/-- The earliest timestamp of a sample list (0 for the empty list, which is
never used at that argument). -/
def minTs : List Sample → ℚ
  | [] => 0
  | [s] => s.ts
  | s :: t => min s.ts (minTs t)

/-- The latest timestamp of a sample list (0 for the empty list, which is
never used at that argument). -/
def maxTs : List Sample → ℚ
  | [] => 0
  | [s] => s.ts
  | s :: t => max s.ts (maxTs t)

/-- Models `sorted_data[0]` — the first element of a (nonempty) list. -/
def pyFirst (l : List Sample) : Sample := l.headD default

/-- Models `sorted_data[-1]` — the last element of a (nonempty) list. -/
def pyLast (l : List Sample) : Sample := l.getLastD default

/-- Embeds `calculate_total_duration` from `src/src/models/fit_data.py` (the
non-error path: the caller has already established at least two samples):
sort by timestamp, subtract the first timestamp from the last, convert
seconds to minutes. -/
def calculate_total_duration (l : List Sample) : ℚ :=
  let sorted_data := sortByTs l
  ((pyLast sorted_data).ts - (pyFirst sorted_data).ts) / 60

/-- Reads a result as a plain boolean, so that "the call raises" can be
stated without binders. -/
def isOkE {α : Type} : Except String α → Bool
  | Except.ok _ => true
  | Except.error _ => false

/-- The message of an error result (empty string on success). -/
def errMsgE {α : Type} : Except String α → String
  | Except.ok _ => ""
  | Except.error e => e

/-- Embeds `validate_weight` from `src/src/validators/input_validator.py`:
positive and at most 500 kg. -/
def validate_weight (weight : ℚ) : Except String ℚ :=
  if weight ≤ 0 then Except.error "Weight must be positive"
  else if 500 < weight then Except.error "Weight exceeds reasonable maximum (500 kg)"
  else Except.ok weight

/-- Embeds `validate_age` from `src/src/validators/input_validator.py`:
positive and at most 130 years. -/
def validate_age (age : ℚ) : Except String ℚ :=
  if age ≤ 0 then Except.error "Age must be positive"
  else if 130 < age then Except.error "Age exceeds reasonable maximum (130 years)"
  else Except.ok age

/-- Embeds `validate_heart_rate` from `src/src/validators/input_validator.py`:
positive and at most 250 bpm. -/
def validate_heart_rate (heart_rate : ℚ) : Except String ℚ :=
  if heart_rate ≤ 0 then Except.error "Heart rate must be positive"
  else if 250 < heart_rate then Except.error "Heart rate exceeds physiological maximum (250 bpm)"
  else Except.ok heart_rate

/-- Embeds `validate_heart_rate_data` from `src/src/validators/input_validator.py`:
rejects an empty list, then validates every sample's heart rate with
`validate_heart_rate` (timestamps are instants by construction here;
chronological order and duplicate timestamps only produce log warnings,
never errors), returning the samples unchanged. -/
def validate_heart_rate_data (l : List Sample) : Except String (List Sample) :=
  if l.isEmpty then Except.error "Heart rate data cannot be empty"
  else if ∀ s ∈ l, 0 < s.hr ∧ s.hr ≤ 250 then Except.ok l
  else Except.error "Heart rate at some index is out of range"

/-- The dataclass checks of `CalorieData` from `src/src/models/fit_data.py`. -/
structure CalorieData where
  total_calories : ℚ
  average_heart_rate : ℚ
  duration_minutes : ℚ
  weight : ℚ
  age : ℚ
  gender : Gender
  intervals_processed : ℕ
deriving DecidableEq, Repr

/-- Embeds `CalorieData.__post_init__` from `src/src/models/fit_data.py`: the
constructor raises (here: returns an error) unless `total_calories ≥ 0`,
`average_heart_rate > 0`, `duration_minutes ≥ 0`, `weight > 0`, `age > 0`
(the gender and integer checks hold by typing in this embedding). -/
def mkCalorieData (tc avg dur weight age : ℚ) (g : Gender) (ip : ℕ) :
    Except String CalorieData :=
  if tc < 0 then Except.error "total_calories cannot be negative"
  else if avg ≤ 0 then Except.error "average_heart_rate must be positive"
  else if dur < 0 then Except.error "duration_minutes cannot be negative"
  else if weight ≤ 0 then Except.error "weight must be positive"
  else if age ≤ 0 then Except.error "age must be positive"
  else Except.ok ⟨tc, avg, dur, weight, age, g, ip⟩

/-- The body of the integration loop of `integrate_calories_over_intervals`
(`src/src/services/fit_processor.py`), for one consecutive pair
`(prev, curr)`: `none` means the interval is skipped, `some c` means `c`
calories are accumulated and the interval is counted.  The three skip
policies in source order: non-positive time delta, delta below 0.01
minutes, averaged heart rate outside `(0, 250]`. -/
def intervalCalories (weight age : ℚ) (gender : Gender) (prev curr : Sample) : Option ℚ :=
  if curr.ts ≤ prev.ts then none
  else
    let delta_minutes := (curr.ts - prev.ts) / 60
    if delta_minutes < 0.01 then none
    else
      let avg_hr := (prev.hr + curr.hr) / 2
      if avg_hr ≤ 0 ∨ 250 < avg_hr then none
      else some (calories_burned avg_hr delta_minutes weight age gender)

/-- The consecutive pairs `(data[i-1], data[i])` for `i in range(1, len(data))`. -/
def consecutivePairs (l : List Sample) : List (Sample × Sample) := l.zip l.tail

/-- The `for` loop of `integrate_calories_over_intervals`: fold over the
consecutive pairs accumulating `(total_calories, intervals_processed)`. -/
def integrationLoop (weight age : ℚ) (gender : Gender) (l : List Sample) : ℚ × ℕ :=
  (consecutivePairs l).foldl
    (fun acc p =>
      match intervalCalories weight age gender p.1 p.2 with
      | none => acc
      | some c => (acc.1 + c, acc.2 + 1))
    (0, 0)

/-- The calorie contributions of exactly the counted (non-skipped)
intervals, in order. -/
def countedIntervals (weight age : ℚ) (gender : Gender) (l : List Sample) : List ℚ :=
  (consecutivePairs l).filterMap (fun p => intervalCalories weight age gender p.1 p.2)

/-- Embeds `integrate_calories_over_intervals` from
`src/src/services/fit_processor.py`: validate the profile, validate the
heart-rate data, require at least two samples, run the integration loop,
compute the mean heart rate over all samples and the first-to-last
duration, and build the `CalorieData` (whose dataclass checks can still
raise). -/
def integrate_calories_over_intervals (l : List Sample) (weight age : ℚ)
    (gender : Gender) : Except String CalorieData :=
  match validate_weight weight with
  | Except.error e => Except.error e
  | Except.ok w =>
    match validate_age age with
    | Except.error e => Except.error e
    | Except.ok a =>
      match validate_heart_rate_data l with
      | Except.error e => Except.error e
      | Except.ok data =>
        if data.length < 2 then
          Except.error "At least two heart rate data points are required"
        else
          let res := integrationLoop w a gender data
          let heart_rates := data.map Sample.hr
          let average_heart_rate := heart_rates.sum / heart_rates.length
          let duration_minutes := calculate_total_duration data
          mkCalorieData res.1 average_heart_rate duration_minutes w a gender res.2

deriving instance DecidableEq for Except

/-- A field value as seen by `extract_heart_rate_data`: an instant (a
Python `datetime`), a number (`int`/`float`), or anything else. -/
inductive FitValue where
  | instant (t : ℚ) : FitValue
  | num (x : ℚ) : FitValue
  | other : FitValue
deriving DecidableEq, Repr

/-- A named record field exposing `.name` and `.value`. -/
structure Field where
  name : String
  value : FitValue
deriving DecidableEq, Repr

/-- A record: the sequence of fields obtained by iterating it. -/
abbrev Record : Type := List Field

/-- One iteration of the field loop of `extract_heart_rate_data`
(`src/src/services/fit_processor.py`): the state is the pair
`(timestamp, hr)` of optional values found so far.  A field named
`timestamp` overwrites the timestamp when its value is an instant (else it
is ignored with a warning); a field named `heart_rate` overwrites the
heart rate when its value is numeric and positive (else ignored with a
warning); other fields are ignored. -/
def processField (st : Option ℚ × Option ℚ) (f : Field) : Option ℚ × Option ℚ :=
  if f.name = "timestamp" then
    match f.value with
    | FitValue.instant t => (some t, st.2)
    | _ => st
  else if f.name = "heart_rate" then
    match f.value with
    | FitValue.num x => if x ≤ 0 then st else (st.1, some x)
    | _ => st
  else st

/-- The sample one record contributes: scan its fields, then keep the
record only when both a timestamp and a heart rate were found
(`if hr is not None and timestamp is not None`). -/
def recordSample (r : Record) : Option Sample :=
  let st := r.foldl processField (none, none)
  match st.1, st.2 with
  | some t, some h => some ⟨t, h⟩
  | _, _ => none

/-- Embeds `extract_heart_rate_data` from
`src/src/services/fit_processor.py`: one sample per record that yields
both fields, `MissingDataError` when no record does, and a stable
ascending sort by timestamp on return. -/
def extract_heart_rate_data (records : List Record) : Except String (List Sample) :=
  let heart_rate_data := records.filterMap recordSample
  if heart_rate_data.isEmpty then
    Except.error "No valid heart rate data found in FIT file"
  else
    Except.ok (sortByTs heart_rate_data)

/-- A record contains a field named `timestamp` whose value is an instant. -/
def hasValidTimestamp (r : Record) : Prop :=
  ∃ f ∈ r, f.name = "timestamp" ∧ ∃ t, f.value = FitValue.instant t

/-- A record contains a field named `heart_rate` whose value is numeric
and positive. -/
def hasValidHeartRate (r : Record) : Prop :=
  ∃ f ∈ r, f.name = "heart_rate" ∧ ∃ x, f.value = FitValue.num x ∧ 0 < x

/-- Two complete records arriving out of chronological order, plus one
record with neither wanted field. -/
def demo_records : List Record :=
  [[⟨"timestamp", FitValue.instant 60⟩, ⟨"heart_rate", FitValue.num 110⟩],
   [⟨"timestamp", FitValue.instant 0⟩, ⟨"heart_rate", FitValue.num 100⟩],
   [⟨"speed", FitValue.num 5⟩]]

/-- A single record whose heart-rate field holds 300 bpm: numeric and
positive, so the extractor accepts it although it exceeds 250. -/
def overrange_records : List Record :=
  [[⟨"timestamp", FitValue.instant 0⟩, ⟨"heart_rate", FitValue.num 300⟩]]

/-- A large gap recorded by `validate_fit_file_data_integrity`
(`{start_time, end_time, gap_minutes}`). -/
structure GapEvent where
  start_time : ℚ
  end_time : ℚ
  gap_minutes : ℚ
deriving DecidableEq, Repr

/-- A flat-line period recorded by `validate_fit_file_data_integrity`
(`{heart_rate, start_time, end_time, count}`; the first two are the
Python variables `current_hr` and `flat_start`, which are `None` until
assigned). -/
structure FlatRun where
  heart_rate : Option ℚ
  start_time : Option ℚ
  end_time : ℚ
  count : ℕ
deriving DecidableEq, Repr

/-- The state of the flat-line scan of `validate_fit_file_data_integrity`:
`current_hr`, `flat_start`, `flat_count` and the accumulated
`flat_periods`. -/
structure FlatState where
  current_hr : Option ℚ
  flat_start : Option ℚ
  flat_count : ℕ
  flat_periods : List FlatRun
deriving DecidableEq, Repr

/-- One iteration of the flat-line loop of
`validate_fit_file_data_integrity` (`src/src/validators/input_validator.py`):
on a repeated value, set `flat_start` if unset and bump the counter; on a
new value, flush a `FlatRun` when the counter reached 10, then restart the
counter at 1.  Note there is no flush after the loop, so a run reaching
the end of the data is never recorded. -/
def flatStep (st : FlatState) (s : Sample) : FlatState :=
  if some s.hr = st.current_hr then
    { st with
      flat_start := some (st.flat_start.getD s.ts)
      flat_count := st.flat_count + 1 }
  else
    { current_hr := some s.hr
      flat_start := none
      flat_count := 1
      flat_periods :=
        if 10 ≤ st.flat_count then
          st.flat_periods ++ [⟨st.current_hr, st.flat_start, s.ts, st.flat_count⟩]
        else st.flat_periods }

/-- The flat-line loop of `validate_fit_file_data_integrity`, started from
`current_hr = None`, `flat_start = None`, `flat_count = 0`. -/
def flatScan (l : List Sample) : List FlatRun :=
  (l.foldl flatStep ⟨none, none, 0, []⟩).flat_periods

/-- The gap loop of `validate_fit_file_data_integrity`: one `GapEvent` per
consecutive pair of the sorted data whose delta exceeds
`max_gap_minutes`. -/
def gapEvents (sorted_data : List Sample) (max_gap_minutes : ℚ) : List GapEvent :=
  (sorted_data.zip sorted_data.tail).filterMap (fun p =>
    if max_gap_minutes < (p.2.ts - p.1.ts) / 60 then
      some ⟨p.1.ts, p.2.ts, (p.2.ts - p.1.ts) / 60⟩
    else none)

/-- Python's `min(heart_rates)` (0 for the empty list, never used there). -/
def minHr : List Sample → ℚ
  | [] => 0
  | [s] => s.hr
  | s :: t => min s.hr (minHr t)

/-- Python's `max(heart_rates)` (0 for the empty list, never used there). -/
def maxHr : List Sample → ℚ
  | [] => 0
  | [s] => s.hr
  | s :: t => max s.hr (maxHr t)

/-- Embeds `calculate_data_quality_score` from
`src/src/validators/input_validator.py`: start at 1.0; subtract 0.2 when
the density `data_points / duration` is below 0.5 samples per minute
(0.1 when below 1.0), but only when the duration is positive; subtract
`min(0.3, 0.1 * gaps)` and `min(0.3, 0.05 * warnings)`; clamp to
`[0, 1]`.  The sequential Python subtractions are written as one
expression. -/
def calculate_data_quality_score (data_points : ℕ) (duration_minutes : ℚ)
    (large_gaps : List GapEvent) (warnings : List String) : ℚ :=
  max 0 (min 1
    ((if 0 < duration_minutes then
        (if (data_points : ℚ) / duration_minutes < 0.5 then (1:ℚ) - 0.2
         else if (data_points : ℚ) / duration_minutes < 1 then 1 - 0.1
         else 1)
      else 1)
      - min 0.3 ((large_gaps.length : ℚ) * 0.1)
      - min 0.3 ((warnings.length : ℚ) * 0.05)))

/-- The report dictionary returned by `validate_fit_file_data_integrity`
(`heart_rate_stats` is flattened into the four `..._hr`/`hr_range`
fields). -/
structure IntegrityReport where
  is_valid : Bool
  data_points : ℕ
  total_duration_minutes : ℚ
  average_interval_minutes : ℚ
  min_hr : ℚ
  max_hr : ℚ
  avg_hr : ℚ
  hr_range : ℚ
  large_gaps : List GapEvent
  flat_periods : List FlatRun
  warnings : List String
  quality_score : ℚ
deriving DecidableEq, Repr

/-- Embeds `validate_fit_file_data_integrity` from
`src/src/validators/input_validator.py`: require `min_data_points`
samples, validate them, sort by timestamp, then compute duration, gaps,
heart-rate statistics, warnings (the warning strings stand in for the
Python f-strings), flat-line periods and the quality score. -/
def validate_fit_file_data_integrity (heart_rate_data : List Sample)
    (min_data_points : ℕ) (max_gap_minutes : ℚ) : Except String IntegrityReport :=
  if heart_rate_data.length < min_data_points then
    Except.error "Not enough heart rate data points"
  else
    match validate_heart_rate_data heart_rate_data with
    | Except.error e => Except.error e
    | Except.ok validated_data =>
      let sorted_data := sortByTs validated_data
      let total_duration := ((pyLast sorted_data).ts - (pyFirst sorted_data).ts) / 60
      let data_points := sorted_data.length
      let avg_interval :=
        if 1 < data_points then total_duration / ((data_points : ℚ) - 1) else 0
      let large_gaps := gapEvents sorted_data max_gap_minutes
      let flat_periods := flatScan sorted_data
      let warnings :=
        (if minHr sorted_data < 40 then ["Very low minimum heart rate"] else []) ++
        (if 220 < maxHr sorted_data then ["Very high maximum heart rate"] else []) ++
        (if 150 < maxHr sorted_data - minHr sorted_data then
          ["Very large heart rate range"] else []) ++
        (if large_gaps.isEmpty then [] else ["Found large gaps in data"]) ++
        (if flat_periods.isEmpty then [] else ["Found potential flat-line periods"])
      Except.ok
        ⟨true, data_points, total_duration, avg_interval,
         minHr sorted_data, maxHr sorted_data,
         (sorted_data.map Sample.hr).sum / ((sorted_data.map Sample.hr).length : ℚ),
         maxHr sorted_data - minHr sorted_data,
         large_gaps, flat_periods, warnings,
         calculate_data_quality_score data_points total_duration large_gaps warnings⟩

/-- The lengths of the maximal runs of consecutive equal heart-rate
values, scanning left to right: the first argument pair seeds the current
run (its value and its length so far); a sample equal to the current value
extends the run, a different one closes it. -/
def chunksFrom (v : ℚ) (k : ℕ) : List Sample → List ℕ
  | [] => [k]
  | s :: t => if s.hr = v then chunksFrom v (k + 1) t else k :: chunksFrom s.hr 1 t

/-- The lengths of all maximal runs of consecutive equal heart-rate
values of a sample list, in order. -/
def runLengths : List Sample → List ℕ
  | [] => []
  | s :: t => chunksFrom s.hr 1 t

/-- The recorded flat-run counts as the loop of
`validate_fit_file_data_integrity` actually produces them: scanning left
to right with the current run's value and length, a run is recorded (with
its length as count) exactly when a sample with a different value follows
it and its length reached 10; a run that reaches the end of the list is
never recorded. -/
def runCounts (v : ℚ) (k : ℕ) : List Sample → List ℕ
  | [] => []
  | s :: t =>
    if s.hr = v then runCounts v (k + 1) t
    else (if 10 ≤ k then [k] else []) ++ runCounts s.hr 1 t

/-- Twelve identical 100 bpm samples, one minute apart: one maximal flat
run of length 12 that reaches the end of the data. -/
def flat12_samples : List Sample :=
  [⟨0, 100⟩, ⟨60, 100⟩, ⟨120, 100⟩, ⟨180, 100⟩, ⟨240, 100⟩, ⟨300, 100⟩,
   ⟨360, 100⟩, ⟨420, 100⟩, ⟨480, 100⟩, ⟨540, 100⟩, ⟨600, 100⟩, ⟨660, 100⟩]

/-- Twelve identical 100 bpm samples one minute apart followed, after a
90-minute gap, by one sample at 120 bpm: one terminated flat run of
length 12 and one gap exceeding 60 minutes. -/
def gapflat_samples : List Sample :=
  flat12_samples ++ [⟨6060, 120⟩]

/-- Python's `round` on an exact rational value: round half to even. -/
def pyRound (q : ℚ) : ℤ :=
  if q - ⌊q⌋ < 1/2 then ⌊q⌋
  else if 1/2 < q - ⌊q⌋ then ⌊q⌋ + 1
  else if Even ⌊q⌋ then ⌊q⌋ else ⌊q⌋ + 1

/-- Python's `int()` truncation toward zero on an exact rational value. -/
def pyTrunc (q : ℚ) : ℤ := if q < 0 then -⌊-q⌋ else ⌊q⌋

/-- One Karvonen zone: the two percentage labels of the dict key
`f"{int(cur*100)}%-{int(next*100)}%"` and the rounded heart-rate
bounds. -/
structure Zone where
  low_pct : ℤ
  high_pct : ℤ
  lower_hr : ℤ
  upper_hr : ℤ
deriving DecidableEq, Repr

/-- One iteration of the zone loop of `calculate_karvonen_zones`
(`src/src/core/utils.py`): round both boundaries and apply the defensive
swap `if lower_hr > upper_hr`. -/
def mkZone (hrr resting cur next : ℚ) : Zone :=
  let lower_hr := pyRound (hrr * cur + resting)
  let upper_hr := pyRound (hrr * next + resting)
  if upper_hr < lower_hr then
    ⟨pyTrunc (cur * 100), pyTrunc (next * 100), upper_hr, lower_hr⟩
  else
    ⟨pyTrunc (cur * 100), pyTrunc (next * 100), lower_hr, upper_hr⟩

/-- The zone loop of `calculate_karvonen_zones`: each intensity is paired
with the next one, the last with 1.0. -/
def zonesFrom (hrr resting : ℚ) : List ℚ → List Zone
  | [] => []
  | [c] => [mkZone hrr resting c 1]
  | c :: c2 :: rest => mkZone hrr resting c c2 :: zonesFrom hrr resting (c2 :: rest)

/-- Whether two zones carry the same dict key: the key string
`f"{int(cur*100)}%-{int(next*100)}%"` is determined by, and determines,
the pair `(low_pct, high_pct)` (an integer's decimal rendering contains
no `%`, so distinct pairs give distinct strings). -/
def sameZoneKey (w z : Zone) : Bool :=
  decide (w.low_pct = z.low_pct) && decide (w.high_pct = z.high_pct)

/-- Python's dict assignment `karvonen_zones[zone_key] = (lower, upper)`
on an insertion-ordered dict modelled as a list of zones with pairwise
distinct keys: an existing key keeps its position and gets the new value,
a new key is appended.  (The `map` replaces every entry with the key;
the loop below never creates duplicate keys, so exactly one entry is
replaced.) -/
def dictInsertZone (m : List Zone) (z : Zone) : List Zone :=
  if m.any (fun w => sameZoneKey w z) then
    m.map (fun w => if sameZoneKey w z then z else w)
  else m ++ [z]

/-- The dict built by the zone loop of `calculate_karvonen_zones`: each
computed zone is assigned under its key in loop order, a later zone
overwriting an earlier one that shares its key. -/
def zonesDict (hrr resting : ℚ) (l : List ℚ) : List Zone :=
  (zonesFrom hrr resting l).foldl dictInsertZone []

/-- Python's `sorted(list(set(intensity_percentages)))`: the distinct
intensities in ascending order. -/
def sortedIntensities (l : List ℚ) : List ℚ :=
  List.insertionSort (· ≤ ·) l.dedup

/-- The maximum heart rate of `calculate_karvonen_zones`: the measured
value when provided, else the Tanaka, Monahan & Seals estimate
`208 - 0.7 * age`. -/
def karvonenMhr (age : ℤ) (max_heart_rate : Option ℤ) : ℚ :=
  match max_heart_rate with
  | none => 208 - 0.7 * (age : ℚ)
  | some m => (m : ℚ)

/-- Embeds `calculate_karvonen_zones` from `src/src/core/utils.py`:
validate the inputs (the `max_heart_rate.getD 1 ≤ 0` test encodes
"provided and non-positive"), compute `mhr` and `hrr = mhr - resting`,
fail when `hrr < 0`, and assign one zone per distinct intensity in
ascending order into the returned dict, whose truncated-percentage keys
can collide — a later zone then overwrites an earlier one. -/
def calculate_karvonen_zones (age resting_heart_rate : ℤ)
    (intensity_percentages : List ℚ) (max_heart_rate : Option ℤ) :
    Except String (List Zone) :=
  if age ≤ 0 then Except.error "Age must be a positive integer."
  else if resting_heart_rate ≤ 0 then
    Except.error "Resting heart rate must be a positive integer."
  else if intensity_percentages.isEmpty then
    Except.error "Intensity percentages must be a non-empty list of floats."
  else if ¬ ∀ i ∈ intensity_percentages, 0 ≤ i ∧ i ≤ 1 then
    Except.error "Each intensity percentage must be a float between 0 and 1."
  else if max_heart_rate.getD 1 ≤ 0 then
    Except.error "Max heart rate, if provided, must be a positive integer."
  else
    let mhr := karvonenMhr age max_heart_rate
    let hrr := mhr - (resting_heart_rate : ℚ)
    if hrr < 0 then
      Except.error "Calculated Max Heart Rate cannot be less than Resting Heart Rate."
    else
      Except.ok (zonesDict hrr (resting_heart_rate : ℚ)
        (sortedIntensities intensity_percentages))

/-- The zones as the claim states them, with no swap: each zone's lower
bound is `round(hrr*intensity + resting)` and its upper bound is the next
intensity's boundary, the topmost computed at intensity 1.0. -/
def zonesSpec (hrr resting : ℚ) : List ℚ → List Zone
  | [] => []
  | [c] => [⟨pyTrunc (c * 100), pyTrunc ((1:ℚ) * 100),
      pyRound (hrr * c + resting), pyRound (hrr * 1 + resting)⟩]
  | c :: c2 :: rest =>
    ⟨pyTrunc (c * 100), pyTrunc (c2 * 100),
      pyRound (hrr * c + resting), pyRound (hrr * c2 + resting)⟩ ::
    zonesSpec hrr resting (c2 :: rest)

/-- Three validated intensities whose truncated-percentage key components
collide: `int(0*100) = int(0.006*100) = int(0.009*100) = 0`, so with
`hrr = 100` the first two zones share the dict key `"0%-0%"`. -/
def collide_intensities : List ℚ := [0, 6/1000, 9/1000]

/-- The integrator example from the spec: samples at t0, t0+1min, t0+2min
with heart rates 100, 110, 120 bpm. -/
def spec_samples : List Sample := [⟨0, 100⟩, ⟨60, 110⟩, ⟨120, 120⟩]

/-- Two validated samples one minute apart whose low heart rate (40 bpm)
makes the Keytel formula negative for a 50 kg, 20-year-old male. -/
def lowhr_samples : List Sample := [⟨0, 40⟩, ⟨60, 40⟩]

/-! ## Theorems -/

/-- C4: round-trip law of the Keytel formula engine.  For every heart rate,
weight and age in their validated ranges and both genders,
`calculate_heart_rate` recovers the heart rate from the
`calculate_kcal_per_min` value computed with the other inputs held fixed,
and symmetrically `calculate_weight` recovers the weight and
`calculate_age` recovers the age — exactly, over exact arithmetic. -/
theorem keytel_round_trip (hr w a : ℚ) (g : Gender)
    (hhr : 0 < hr ∧ hr ≤ 250) (hw : 0 < w ∧ w ≤ 500) (ha : 0 < a ∧ a ≤ 130) :
    calculate_heart_rate (calculate_kcal_per_min hr w a g) w a g = hr ∧
    calculate_weight (calculate_kcal_per_min hr w a g) hr a g = w ∧
    calculate_age (calculate_kcal_per_min hr w a g) hr w g = a := by
  cases g <;>
    refine ⟨?_, ?_, ?_⟩ <;>
      · simp only [calculate_heart_rate, calculate_weight, calculate_age,
          calculate_kcal_per_min, constantsFor, MALE_CONSTANTS, FEMALE_CONSTANTS]
        norm_num
        ring

/-- Witness for C4 at heart rate 100 bpm, weight 70 kg, age 30 years, male. -/
theorem keytel_round_trip_witness :
    calculate_heart_rate (calculate_kcal_per_min 100 70 30 Gender.male) 70 30 Gender.male = 100 :=
  (keytel_round_trip 100 70 30 Gender.male (by norm_num) (by norm_num) (by norm_num)).1

theorem minTs_le_of_mem : ∀ (l : List Sample), ∀ x ∈ l, minTs l ≤ x.ts := by
  intro l
  induction l with
  | nil => intro x hx; cases hx
  | cons s t ih =>
    intro x hx
    cases t with
    | nil =>
      rcases List.mem_singleton.mp hx with rfl
      simp [minTs]
    | cons b u =>
      rcases List.mem_cons.mp hx with rfl | hx
      · exact min_le_of_left_le le_rfl
      · exact min_le_of_right_le (ih x hx)

theorem le_maxTs_of_mem : ∀ (l : List Sample), ∀ x ∈ l, x.ts ≤ maxTs l := by
  intro l
  induction l with
  | nil => intro x hx; cases hx
  | cons s t ih =>
    intro x hx
    cases t with
    | nil =>
      rcases List.mem_singleton.mp hx with rfl
      simp [maxTs]
    | cons b u =>
      rcases List.mem_cons.mp hx with rfl | hx
      · exact le_max_of_le_left le_rfl
      · exact le_max_of_le_right (ih x hx)

theorem exists_mem_minTs : ∀ (l : List Sample), l ≠ [] → ∃ x ∈ l, x.ts = minTs l := by
  intro l
  induction l with
  | nil => intro h; exact absurd rfl h
  | cons s t ih =>
    intro _
    cases t with
    | nil => exact ⟨s, List.mem_singleton_self s, rfl⟩
    | cons b u =>
      obtain ⟨y, hy, hyts⟩ := ih (List.cons_ne_nil b u)
      rcases le_total s.ts (minTs (b :: u)) with h | h
      · refine ⟨s, List.mem_cons_self s _, ?_⟩
        show s.ts = min s.ts (minTs (b :: u))
        rw [min_eq_left h]
      · refine ⟨y, List.mem_cons_of_mem s hy, ?_⟩
        show y.ts = min s.ts (minTs (b :: u))
        rw [hyts, min_eq_right h]

theorem exists_mem_maxTs : ∀ (l : List Sample), l ≠ [] → ∃ x ∈ l, x.ts = maxTs l := by
  intro l
  induction l with
  | nil => intro h; exact absurd rfl h
  | cons s t ih =>
    intro _
    cases t with
    | nil => exact ⟨s, List.mem_singleton_self s, rfl⟩
    | cons b u =>
      obtain ⟨y, hy, hyts⟩ := ih (List.cons_ne_nil b u)
      rcases le_total s.ts (maxTs (b :: u)) with h | h
      · refine ⟨y, List.mem_cons_of_mem s hy, ?_⟩
        show y.ts = max s.ts (maxTs (b :: u))
        rw [hyts, max_eq_right h]
      · refine ⟨s, List.mem_cons_self s _, ?_⟩
        show s.ts = max s.ts (maxTs (b :: u))
        rw [max_eq_left h]

theorem minTs_le_maxTs (l : List Sample) (hl : l ≠ []) : minTs l ≤ maxTs l := by
  obtain ⟨y, hy, hyts⟩ := exists_mem_minTs l hl
  exact hyts ▸ le_maxTs_of_mem l y hy

theorem pyFirst_mem (l : List Sample) (hl : l ≠ []) : pyFirst l ∈ l := by
  cases l with
  | nil => exact absurd rfl hl
  | cons a t => exact List.mem_cons_self a t

theorem pyLast_mem : ∀ (l : List Sample), l ≠ [] → pyLast l ∈ l := by
  intro l
  induction l with
  | nil => intro h; exact absurd rfl h
  | cons a t ih =>
    intro _
    cases t with
    | nil => simp [pyLast]
    | cons b u =>
      have : pyLast (a :: b :: u) = pyLast (b :: u) := by
        simp [pyLast, List.getLastD_cons]
      rw [this]
      exact List.mem_cons_of_mem a (ih (List.cons_ne_nil b u))

theorem sorted_pyFirst_le (s : List Sample) (hs : List.Sorted tsLe s) :
    ∀ x ∈ s, (pyFirst s).ts ≤ x.ts := by
  cases s with
  | nil => intro x hx; cases hx
  | cons a t =>
    intro x hx
    rcases List.mem_cons.mp hx with rfl | hx
    · exact le_rfl
    · exact List.rel_of_sorted_cons hs x hx

theorem sorted_le_pyLast : ∀ (s : List Sample), List.Sorted tsLe s →
    ∀ x ∈ s, x.ts ≤ (pyLast s).ts := by
  intro s
  induction s with
  | nil => intro _ x hx; cases hx
  | cons a t ih =>
    intro hs x hx
    cases t with
    | nil =>
      rcases List.mem_singleton.mp hx with rfl
      exact le_rfl
    | cons b u =>
      have hshift : pyLast (a :: b :: u) = pyLast (b :: u) := by
        simp [pyLast, List.getLastD_cons]
      rw [hshift]
      rcases List.mem_cons.mp hx with rfl | hx
      · exact le_trans
          (List.rel_of_sorted_cons hs b (List.mem_cons_self b u))
          (ih hs.of_cons b (List.mem_cons_self b u))
      · exact ih hs.of_cons x hx

theorem sortByTs_ne_nil (l : List Sample) (hl : l ≠ []) : sortByTs l ≠ [] := by
  intro h
  have := List.length_insertionSort tsLe l
  rw [show List.insertionSort tsLe l = sortByTs l from rfl, h] at this
  exact hl (List.length_eq_zero.mp this.symm)

theorem mem_sortByTs {l : List Sample} {x : Sample} : x ∈ sortByTs l ↔ x ∈ l :=
  List.mem_insertionSort tsLe

theorem pyFirst_sortByTs (l : List Sample) (hl : l ≠ []) :
    (pyFirst (sortByTs l)).ts = minTs l := by
  have hsorted : List.Sorted tsLe (sortByTs l) := List.sorted_insertionSort tsLe l
  have hne := sortByTs_ne_nil l hl
  obtain ⟨y, hy, hyts⟩ := exists_mem_minTs l hl
  have h1 : (pyFirst (sortByTs l)).ts ≤ y.ts :=
    sorted_pyFirst_le _ hsorted y (mem_sortByTs.mpr hy)
  have h2 : minTs l ≤ (pyFirst (sortByTs l)).ts :=
    minTs_le_of_mem l _ (mem_sortByTs.mp (pyFirst_mem _ hne))
  exact le_antisymm (hyts ▸ h1) h2

theorem pyLast_sortByTs (l : List Sample) (hl : l ≠ []) :
    (pyLast (sortByTs l)).ts = maxTs l := by
  have hsorted : List.Sorted tsLe (sortByTs l) := List.sorted_insertionSort tsLe l
  have hne := sortByTs_ne_nil l hl
  obtain ⟨y, hy, hyts⟩ := exists_mem_maxTs l hl
  have h1 : y.ts ≤ (pyLast (sortByTs l)).ts :=
    sorted_le_pyLast _ hsorted y (mem_sortByTs.mpr hy)
  have h2 : (pyLast (sortByTs l)).ts ≤ maxTs l :=
    le_maxTs_of_mem l _ (mem_sortByTs.mp (pyLast_mem _ hne))
  exact le_antisymm h2 (hyts ▸ h1)

theorem calculate_total_duration_eq (l : List Sample) (hl : l ≠ []) :
    calculate_total_duration l = (maxTs l - minTs l) / 60 := by
  have hdef : calculate_total_duration l =
      ((pyLast (sortByTs l)).ts - (pyFirst (sortByTs l)).ts) / 60 := rfl
  rw [hdef, pyFirst_sortByTs l hl, pyLast_sortByTs l hl]

theorem calculate_total_duration_nonneg (l : List Sample) (hl : l ≠ []) :
    0 ≤ calculate_total_duration l := by
  rw [calculate_total_duration_eq l hl]
  exact div_nonneg (sub_nonneg.mpr (minTs_le_maxTs l hl)) (by norm_num)

theorem integrationLoop_foldl_eq (weight age : ℚ) (gender : Gender) :
    ∀ (pairs : List (Sample × Sample)) (t : ℚ) (n : ℕ),
      pairs.foldl
        (fun acc p =>
          match intervalCalories weight age gender p.1 p.2 with
          | none => acc
          | some c => (acc.1 + c, acc.2 + 1))
        (t, n) =
      (t + (pairs.filterMap (fun p => intervalCalories weight age gender p.1 p.2)).sum,
       n + (pairs.filterMap (fun p => intervalCalories weight age gender p.1 p.2)).length) := by
  intro pairs
  induction pairs with
  | nil => intro t n; simp
  | cons p ps ih =>
    intro t n
    cases hc : intervalCalories weight age gender p.1 p.2 with
    | none => simp [List.foldl_cons, List.filterMap_cons, hc, ih]
    | some c =>
      simp only [List.foldl_cons, List.filterMap_cons, hc, ih, List.sum_cons, List.length_cons]
      refine Prod.ext ?_ ?_
      · push_cast
        ring
      · simp
        omega

theorem integrationLoop_eq_counted (weight age : ℚ) (gender : Gender) (l : List Sample) :
    integrationLoop weight age gender l =
      ((countedIntervals weight age gender l).sum,
       (countedIntervals weight age gender l).length) := by
  unfold integrationLoop countedIntervals
  rw [integrationLoop_foldl_eq]
  simp

theorem validate_weight_ok {w w' : ℚ} (h : validate_weight w = Except.ok w') : w' = w := by
  unfold validate_weight at h
  split_ifs at h
  exact (Except.ok.injEq _ _).mp h.symm

theorem validate_age_ok {a a' : ℚ} (h : validate_age a = Except.ok a') : a' = a := by
  unfold validate_age at h
  split_ifs at h
  exact (Except.ok.injEq _ _).mp h.symm

theorem validate_heart_rate_data_ok {l data : List Sample}
    (h : validate_heart_rate_data l = Except.ok data) :
    data = l ∧ ¬ l.isEmpty ∧ ∀ s ∈ l, 0 < s.hr ∧ s.hr ≤ 250 := by
  unfold validate_heart_rate_data at h
  split_ifs at h with h1 h2
  exact ⟨((Except.ok.injEq _ _).mp h).symm, h1, h2⟩

theorem mkCalorieData_ok {tc avg dur w a : ℚ} {g : Gender} {ip : ℕ} {r : CalorieData}
    (h : mkCalorieData tc avg dur w a g ip = Except.ok r) :
    r = ⟨tc, avg, dur, w, a, g, ip⟩ := by
  unfold mkCalorieData at h
  split_ifs at h
  exact ((Except.ok.injEq _ _).mp h).symm

theorem validate_weight_eq_ok {w : ℚ} (h1 : 0 < w) (h2 : w ≤ 500) :
    validate_weight w = Except.ok w := by
  unfold validate_weight
  rw [if_neg (not_le.mpr h1), if_neg (not_lt.mpr h2)]

theorem validate_age_eq_ok {a : ℚ} (h1 : 0 < a) (h2 : a ≤ 130) :
    validate_age a = Except.ok a := by
  unfold validate_age
  rw [if_neg (not_le.mpr h1), if_neg (not_lt.mpr h2)]

theorem validate_heart_rate_data_eq_ok {l : List Sample} (hne : l ≠ [])
    (hhr : ∀ s ∈ l, 0 < s.hr ∧ s.hr ≤ 250) :
    validate_heart_rate_data l = Except.ok l := by
  unfold validate_heart_rate_data
  rw [if_neg (by simpa using hne), if_pos hhr]

/-- Under valid inputs, `integrate_calories_over_intervals` reduces to the
loop result fed into the `CalorieData` constructor. -/
theorem integrate_eq_mk (l : List Sample) (w a : ℚ) (g : Gender)
    (hw : 0 < w ∧ w ≤ 500) (ha : 0 < a ∧ a ≤ 130)
    (hhr : ∀ s ∈ l, 0 < s.hr ∧ s.hr ≤ 250) (hlen : 2 ≤ l.length) :
    integrate_calories_over_intervals l w a g =
      mkCalorieData (integrationLoop w a g l).1
        ((l.map Sample.hr).sum / (l.map Sample.hr).length)
        (calculate_total_duration l) w a g (integrationLoop w a g l).2 := by
  have hne : l ≠ [] := by
    intro h
    rw [h] at hlen
    simp at hlen
  unfold integrate_calories_over_intervals
  rw [validate_weight_eq_ok hw.1 hw.2, validate_age_eq_ok ha.1 ha.2,
    validate_heart_rate_data_eq_ok hne hhr]
  simp only [if_neg (not_lt.mpr hlen)]

theorem mkCalorieData_eq_ok {tc avg dur w a : ℚ} {g : Gender} {ip : ℕ}
    (h1 : 0 ≤ tc) (h2 : 0 < avg) (h3 : 0 ≤ dur) (h4 : 0 < w) (h5 : 0 < a) :
    mkCalorieData tc avg dur w a g ip = Except.ok ⟨tc, avg, dur, w, a, g, ip⟩ := by
  unfold mkCalorieData
  rw [if_neg (not_lt.mpr h1), if_neg (not_le.mpr h2), if_neg (not_lt.mpr h3),
    if_neg (not_le.mpr h4), if_neg (not_le.mpr h5)]

theorem mkCalorieData_eq_error {tc avg dur w a : ℚ} {g : Gender} {ip : ℕ}
    (h : tc < 0) :
    mkCalorieData tc avg dur w a g ip = Except.error "total_calories cannot be negative" := by
  unfold mkCalorieData
  rw [if_pos h]

theorem avg_hr_pos (l : List Sample) (hne : l ≠ [])
    (hhr : ∀ s ∈ l, 0 < s.hr ∧ s.hr ≤ 250) :
    0 < (l.map Sample.hr).sum / ((l.map Sample.hr).length : ℚ) := by
  apply div_pos
  · apply List.sum_pos
    · intro x hx
      obtain ⟨s, hs, rfl⟩ := List.mem_map.mp hx
      exact (hhr s hs).1
    · simpa using hne
  · have : 0 < l.length := List.length_pos.mpr hne
    simp only [List.length_map]
    exact_mod_cast this

/-- Inversion: whenever `integrate_calories_over_intervals` returns a
result, the input had at least two samples and the result is exactly the
loop total, the mean of all heart rates, the first-to-last duration and
the loop interval count. -/
theorem integrate_ok_inv {l : List Sample} {w a : ℚ} {g : Gender} {r : CalorieData}
    (hok : integrate_calories_over_intervals l w a g = Except.ok r) :
    2 ≤ l.length ∧ l ≠ [] ∧
      r = ⟨(integrationLoop w a g l).1,
        (l.map Sample.hr).sum / ((l.map Sample.hr).length : ℚ),
        calculate_total_duration l, w, a, g, (integrationLoop w a g l).2⟩ := by
  unfold integrate_calories_over_intervals at hok
  split at hok
  · exact Except.noConfusion hok
  · rename_i w' hvw
    split at hok
    · exact Except.noConfusion hok
    · rename_i a' hva
      split at hok
      · exact Except.noConfusion hok
      · rename_i data hvd
        obtain ⟨rfl, hne0, hvalid⟩ := validate_heart_rate_data_ok hvd
        split at hok
        · exact Except.noConfusion hok
        · rename_i hlen2
          obtain rfl := validate_weight_ok hvw
          obtain rfl := validate_age_ok hva
          have hr := mkCalorieData_ok hok
          exact ⟨not_lt.mp hlen2, by simpa using hne0, hr⟩

theorem spec_counted_length :
    (countedIntervals 70 30 Gender.male spec_samples).length = 2 := by
  norm_num [countedIntervals, consecutivePairs, spec_samples, intervalCalories,
    List.filterMap_cons]

theorem spec_counted_sum_nonneg :
    0 ≤ (countedIntervals 70 30 Gender.male spec_samples).sum := by
  norm_num [countedIntervals, consecutivePairs, spec_samples, intervalCalories,
    List.filterMap_cons, calories_burned, calculate_kcal_per_min, constantsFor,
    MALE_CONSTANTS]

theorem lowhr_counted_sum_neg :
    (countedIntervals 50 20 Gender.male lowhr_samples).sum < 0 := by
  norm_num [countedIntervals, consecutivePairs, lowhr_samples, intervalCalories,
    List.filterMap_cons, calories_burned, calculate_kcal_per_min, constantsFor,
    MALE_CONSTANTS]

theorem integrate_spec_samples_isOk :
    isOkE (integrate_calories_over_intervals spec_samples 70 30 Gender.male) = true := by
  have hmk := integrate_eq_mk spec_samples 70 30 Gender.male
    (by norm_num) (by norm_num) (by decide) (by decide)
  have h1 : (integrationLoop 70 30 Gender.male spec_samples).1 =
      (countedIntervals 70 30 Gender.male spec_samples).sum := by
    rw [integrationLoop_eq_counted]
  rw [hmk, h1, mkCalorieData_eq_ok spec_counted_sum_nonneg
    (avg_hr_pos spec_samples (by decide) (by decide))
    (calculate_total_duration_nonneg spec_samples (by decide)) (by norm_num) (by norm_num)]
  rfl

/-- C1: for every sorted sequence of at least two validated samples and
every valid profile, the integration loop of
`integrate_calories_over_intervals` processes each consecutive pair
`(prev, curr)` by the skip policy of `intervalCalories` (skip when
`curr.ts ≤ prev.ts`, when `delta_minutes < 0.01`, or when the averaged
heart rate is `≤ 0` or `> 250`; otherwise add
`calories_burned avg_hr delta_minutes weight age gender` and count the
interval), so the running total is exactly the sum over the counted
intervals and `intervals_processed` is exactly their number — both in the
loop state and in any returned `CalorieData`. -/
theorem integrator_interval_policy (l : List Sample) (w a : ℚ) (g : Gender)
    (hsort : List.Sorted tsLe l) (hlen : 2 ≤ l.length)
    (hhr : ∀ s ∈ l, 0 < s.hr ∧ s.hr ≤ 250)
    (hw : 0 < w ∧ w ≤ 500) (ha : 0 < a ∧ a ≤ 130) :
    (integrationLoop w a g l).1 = (countedIntervals w a g l).sum ∧
    (integrationLoop w a g l).2 = (countedIntervals w a g l).length ∧
    ∀ r : CalorieData, integrate_calories_over_intervals l w a g = Except.ok r →
      r.total_calories = (countedIntervals w a g l).sum ∧
      r.intervals_processed = (countedIntervals w a g l).length := by
  have hloop := integrationLoop_eq_counted w a g l
  refine ⟨by rw [hloop], by rw [hloop], ?_⟩
  intro r hok
  obtain ⟨-, -, rfl⟩ := integrate_ok_inv hok
  exact ⟨by show (integrationLoop w a g l).1 = _; rw [hloop],
    by show (integrationLoop w a g l).2 = _; rw [hloop]⟩

/-- Witness for C1 on the spec's three-sample example: the loop counts
exactly the counted intervals (here both of them). -/
theorem integrator_interval_policy_witness :
    (integrationLoop 70 30 Gender.male spec_samples).2 =
      (countedIntervals 70 30 Gender.male spec_samples).length ∧
    (countedIntervals 70 30 Gender.male spec_samples).length = 2 :=
  ⟨(integrator_interval_policy spec_samples 70 30 Gender.male (by decide) (by decide)
      (by decide) (by norm_num) (by norm_num)).2.1, spec_counted_length⟩

/-- C2: whenever `integrate_calories_over_intervals` returns a result, its
`average_heart_rate` is the arithmetic mean of all sample heart rates
(including samples whose adjacent intervals were skipped) and its
`duration_minutes` is the elapsed time in minutes from the earliest to the
latest sample timestamp, regardless of how many intervals were skipped. -/
theorem integrator_summary_stats (l : List Sample) (w a : ℚ) (g : Gender) (r : CalorieData)
    (hok : integrate_calories_over_intervals l w a g = Except.ok r) :
    r.average_heart_rate = (l.map Sample.hr).sum / ((l.map Sample.hr).length : ℚ) ∧
    r.duration_minutes = (maxTs l - minTs l) / 60 := by
  obtain ⟨-, hne, rfl⟩ := integrate_ok_inv hok
  exact ⟨rfl, calculate_total_duration_eq l hne⟩

/-- Witness for C2 on the spec's three-sample example. -/
theorem integrator_summary_stats_witness :
    Except.map CalorieData.duration_minutes
        (integrate_calories_over_intervals spec_samples 70 30 Gender.male) =
      Except.ok ((maxTs spec_samples - minTs spec_samples) / 60) := by
  cases hok : integrate_calories_over_intervals spec_samples 70 30 Gender.male with
  | error e =>
    have hko := integrate_spec_samples_isOk
    rw [hok] at hko
    exact absurd hko (by simp [isOkE])
  | ok r =>
    have h := (integrator_summary_stats spec_samples 70 30 Gender.male r hok).2
    simp [Except.map, h]

/-- C3 counterexample: on the fully validated input `lowhr_samples`
(two samples, heart rate 40 bpm, one minute apart) with the valid profile
weight 50 kg, age 20, male, the Keytel formula is negative, so
`integrate_calories_over_intervals` raises (the `CalorieData` dataclass
check `total_calories cannot be negative` fires) instead of returning a
result — refuting the claim that the call returns for every valid input. -/
theorem integrator_total_nonneg_counterexample :
    (lowhr_samples.all fun s => decide (0 < s.hr) && decide (s.hr ≤ 250)) = true ∧
    lowhr_samples.length = 2 ∧
    (decide ((0:ℚ) < 50) && decide ((50:ℚ) ≤ 500) && decide ((0:ℚ) < 20) &&
      decide ((20:ℚ) ≤ 130)) = true ∧
    isOkE (integrate_calories_over_intervals lowhr_samples 50 20 Gender.male) = false ∧
    errMsgE (integrate_calories_over_intervals lowhr_samples 50 20 Gender.male) =
      "total_calories cannot be negative" := by
  have hmk := integrate_eq_mk lowhr_samples 50 20 Gender.male
    (by norm_num) (by norm_num) (by decide) (by decide)
  have h1 : (integrationLoop 50 20 Gender.male lowhr_samples).1 =
      (countedIntervals 50 20 Gender.male lowhr_samples).sum := by
    rw [integrationLoop_eq_counted]
  have herr : integrate_calories_over_intervals lowhr_samples 50 20 Gender.male =
      Except.error "total_calories cannot be negative" := by
    rw [hmk, h1, mkCalorieData_eq_error lowhr_counted_sum_neg]
  exact ⟨by decide, by decide, by decide, by rw [herr]; rfl, by rw [herr]; rfl⟩

/-- C3 (amended): for every valid input (at least two validated samples,
valid profile), if the accumulated Keytel total is nonnegative the call
returns a `CalorieResult` whose `total_calories` is that (nonnegative)
total — in particular, when every interval is skipped it returns normally
with `total_calories = 0`; but when the accumulated total is negative, the
`CalorieData` dataclass validation raises instead of returning. -/
theorem integrator_total_nonneg_amended (l : List Sample) (w a : ℚ) (g : Gender)
    (hw : 0 < w ∧ w ≤ 500) (ha : 0 < a ∧ a ≤ 130)
    (hhr : ∀ s ∈ l, 0 < s.hr ∧ s.hr ≤ 250) (hlen : 2 ≤ l.length) :
    (0 ≤ (countedIntervals w a g l).sum →
      integrate_calories_over_intervals l w a g =
        Except.ok ⟨(countedIntervals w a g l).sum,
          (l.map Sample.hr).sum / ((l.map Sample.hr).length : ℚ),
          calculate_total_duration l, w, a, g,
          (countedIntervals w a g l).length⟩) ∧
    ((countedIntervals w a g l).sum < 0 →
      isOkE (integrate_calories_over_intervals l w a g) = false) := by
  have hne : l ≠ [] := by
    intro h
    rw [h] at hlen
    simp at hlen
  have hmk := integrate_eq_mk l w a g hw ha hhr hlen
  have hloop := integrationLoop_eq_counted w a g l
  have h1 : (integrationLoop w a g l).1 = (countedIntervals w a g l).sum := by rw [hloop]
  have h2 : (integrationLoop w a g l).2 = (countedIntervals w a g l).length := by rw [hloop]
  constructor
  · intro hnn
    rw [hmk, h1, h2]
    exact mkCalorieData_eq_ok hnn (avg_hr_pos l hne hhr)
      (calculate_total_duration_nonneg l hne) hw.1 ha.1
  · intro hneg
    rw [hmk, h1, mkCalorieData_eq_error hneg]
    rfl

/-- Witness for the amended C3 on the spec's three-sample example: the
accumulated total is nonnegative, so the call returns normally. -/
theorem integrator_total_nonneg_amended_witness :
    integrate_calories_over_intervals spec_samples 70 30 Gender.male =
      Except.ok ⟨(countedIntervals 70 30 Gender.male spec_samples).sum,
        (spec_samples.map Sample.hr).sum / ((spec_samples.map Sample.hr).length : ℚ),
        calculate_total_duration spec_samples, 70, 30, Gender.male,
        (countedIntervals 70 30 Gender.male spec_samples).length⟩ :=
  (integrator_total_nonneg_amended spec_samples 70 30 Gender.male
      (by norm_num) (by norm_num) (by decide) (by decide)).1 spec_counted_sum_nonneg

/-- C6: `integrate_calories_over_intervals` fails with a validation error
on every empty sample sequence and on every single-sample sequence: the
precondition is `len(samples) ≥ 2`. -/
theorem integrator_requires_two_samples (l : List Sample) (w a : ℚ) (g : Gender)
    (hlen : l.length < 2) :
    isOkE (integrate_calories_over_intervals l w a g) = false := by
  unfold integrate_calories_over_intervals
  cases hvw : validate_weight w with
  | error e => rfl
  | ok w' =>
    cases hva : validate_age a with
    | error e => rfl
    | ok a' =>
      cases hvd : validate_heart_rate_data l with
      | error e => rfl
      | ok data =>
        obtain ⟨rfl, -, -⟩ := validate_heart_rate_data_ok hvd
        dsimp only
        rw [if_pos hlen]
        rfl

/-- Witness for C6: the empty sequence (and, for good measure, a
singleton) both fail. -/
theorem integrator_requires_two_samples_witness :
    isOkE (integrate_calories_over_intervals [] 70 30 Gender.male) = false ∧
    isOkE (integrate_calories_over_intervals [⟨0, 100⟩] 70 30 Gender.male) = false :=
  ⟨integrator_requires_two_samples [] 70 30 Gender.male (by decide),
   integrator_requires_two_samples [⟨0, 100⟩] 70 30 Gender.male (by decide)⟩

theorem processField_ts (st : Option ℚ × Option ℚ) (f : Field) (t : ℚ)
    (h1 : f.name = "timestamp") (h2 : f.value = FitValue.instant t) :
    processField st f = (some t, st.2) := by
  unfold processField
  rw [if_pos h1, h2]

theorem processField_fst_stable (st : Option ℚ × Option ℚ) (f : Field)
    (h : ∀ t, f.name = "timestamp" → f.value ≠ FitValue.instant t) :
    (processField st f).1 = st.1 := by
  unfold processField
  by_cases h1 : f.name = "timestamp"
  · rw [if_pos h1]
    cases hv : f.value with
    | instant t => exact absurd hv (h t h1)
    | num x => rfl
    | other => rfl
  · rw [if_neg h1]
    by_cases h2 : f.name = "heart_rate"
    · rw [if_pos h2]
      cases hv : f.value with
      | instant t => rfl
      | num x =>
        dsimp only
        by_cases h3 : x ≤ 0
        · rw [if_pos h3]
        · rw [if_neg h3]
      | other => rfl
    · rw [if_neg h2]

theorem processField_hr (st : Option ℚ × Option ℚ) (f : Field) (x : ℚ)
    (h1 : f.name = "heart_rate") (h2 : f.value = FitValue.num x) (h3 : 0 < x) :
    processField st f = (st.1, some x) := by
  have hne : ¬ f.name = "timestamp" := by rw [h1]; decide
  unfold processField
  rw [if_neg hne, if_pos h1, h2]
  dsimp only
  rw [if_neg (not_le.mpr h3)]

theorem processField_snd_stable (st : Option ℚ × Option ℚ) (f : Field)
    (h : ∀ x, f.name = "heart_rate" → f.value = FitValue.num x → x ≤ 0) :
    (processField st f).2 = st.2 := by
  unfold processField
  by_cases h1 : f.name = "timestamp"
  · rw [if_pos h1]
    cases hv : f.value with
    | instant t => rfl
    | num x => rfl
    | other => rfl
  · rw [if_neg h1]
    by_cases h2 : f.name = "heart_rate"
    · rw [if_pos h2]
      cases hv : f.value with
      | instant t => rfl
      | num x =>
        dsimp only
        rw [if_pos (h x h2 hv)]
      | other => rfl
    · rw [if_neg h2]


theorem foldl_fst_isSome : ∀ (fs : List Field) (st : Option ℚ × Option ℚ),
    ((fs.foldl processField st).1.isSome = true ↔
      st.1.isSome = true ∨ ∃ f ∈ fs, f.name = "timestamp" ∧ ∃ t, f.value = FitValue.instant t) := by
  intro fs
  induction fs with
  | nil => intro st; simp
  | cons f fs ih =>
    intro st
    rw [List.foldl_cons, ih (processField st f)]
    by_cases hf : f.name = "timestamp" ∧ ∃ t, f.value = FitValue.instant t
    · obtain ⟨h1, t, h2⟩ := hf
      rw [processField_ts st f t h1 h2]
      constructor
      · intro _
        exact Or.inr ⟨f, List.mem_cons_self f fs, h1, t, h2⟩
      · intro _
        left
        rfl
    · have hstable := processField_fst_stable st f
        (fun t h1 hv => hf ⟨h1, t, hv⟩)
      rw [hstable]
      constructor
      · rintro (h | ⟨g, hg, hp⟩)
        · exact Or.inl h
        · exact Or.inr ⟨g, List.mem_cons_of_mem f hg, hp⟩
      · rintro (h | ⟨g, hg, hp⟩)
        · exact Or.inl h
        · rcases List.mem_cons.mp hg with rfl | hg
          · exact absurd hp hf
          · exact Or.inr ⟨g, hg, hp⟩

theorem foldl_snd_isSome : ∀ (fs : List Field) (st : Option ℚ × Option ℚ),
    ((fs.foldl processField st).2.isSome = true ↔
      st.2.isSome = true ∨ ∃ f ∈ fs, f.name = "heart_rate" ∧ ∃ x, f.value = FitValue.num x ∧ 0 < x) := by
  intro fs
  induction fs with
  | nil => intro st; simp
  | cons f fs ih =>
    intro st
    rw [List.foldl_cons, ih (processField st f)]
    by_cases hf : f.name = "heart_rate" ∧ ∃ x, f.value = FitValue.num x ∧ 0 < x
    · obtain ⟨h1, x, h2, h3⟩ := hf
      rw [processField_hr st f x h1 h2 h3]
      constructor
      · intro _
        exact Or.inr ⟨f, List.mem_cons_self f fs, h1, x, h2, h3⟩
      · intro _
        left
        rfl
    · have hstable := processField_snd_stable st f
        (fun x h1 hv => by
          by_contra hpos
          exact hf ⟨h1, x, hv, lt_of_not_le hpos⟩)
      rw [hstable]
      constructor
      · rintro (h | ⟨g, hg, hp⟩)
        · exact Or.inl h
        · exact Or.inr ⟨g, List.mem_cons_of_mem f hg, hp⟩
      · rintro (h | ⟨g, hg, hp⟩)
        · exact Or.inl h
        · rcases List.mem_cons.mp hg with rfl | hg
          · exact absurd hp hf
          · exact Or.inr ⟨g, hg, hp⟩

theorem foldl_snd_pos : ∀ (fs : List Field) (st : Option ℚ × Option ℚ),
    (∀ x, st.2 = some x → 0 < x) →
    ∀ x, (fs.foldl processField st).2 = some x → 0 < x := by
  intro fs
  induction fs with
  | nil => intro st h; exact h
  | cons f fs ih =>
    intro st h
    rw [List.foldl_cons]
    apply ih
    intro x hx
    by_cases hf : f.name = "heart_rate" ∧ ∃ y, f.value = FitValue.num y ∧ 0 < y
    · obtain ⟨h1, y, h2, h3⟩ := hf
      rw [processField_hr st f y h1 h2 h3] at hx
      have : y = x := by simpa using hx
      exact this ▸ h3
    · have hstable := processField_snd_stable st f
        (fun y h1 hv => by
          by_contra hpos
          exact hf ⟨h1, y, hv, lt_of_not_le hpos⟩)
      rw [hstable] at hx
      exact h x hx

theorem recordSample_isSome (r : Record) :
    ((recordSample r).isSome = true ↔ hasValidTimestamp r ∧ hasValidHeartRate r) := by
  have hts := foldl_fst_isSome r (none, none)
  have hhr := foldl_snd_isSome r (none, none)
  simp only [Option.isSome_none, Bool.false_eq_true, false_or] at hts hhr
  unfold recordSample hasValidTimestamp hasValidHeartRate
  rcases hfold : r.foldl processField (none, none) with ⟨o1, o2⟩
  rw [hfold] at hts hhr
  cases o1 <;> cases o2 <;> simp_all
  exact hhr

theorem recordSample_pos (r : Record) (s : Sample)
    (h : recordSample r = some s) : 0 < s.hr := by
  unfold recordSample at h
  rcases hfold : r.foldl processField (none, none) with ⟨o1, o2⟩
  rw [hfold] at h
  have hpos := foldl_snd_pos r (none, none) (by intro x hx; cases hx)
  rw [hfold] at hpos
  cases o1 with
  | none => exact absurd h (by simp)
  | some t =>
    cases o2 with
    | none => exact absurd h (by simp)
    | some v =>
      have : s = ⟨t, v⟩ := by simpa using h.symm
      rw [this]
      exact hpos v rfl


theorem filter_orderedInsert_ts (t : ℚ) (a : Sample) :
    ∀ (s : List Sample),
      (List.orderedInsert tsLe a s).filter (fun x => decide (x.ts = t)) =
        if a.ts = t then a :: s.filter (fun x => decide (x.ts = t))
        else s.filter (fun x => decide (x.ts = t)) := by
  intro s
  induction s with
  | nil =>
    by_cases hat : a.ts = t
    · simp [List.orderedInsert, List.filter, hat]
    · simp [List.orderedInsert, List.filter, hat]
  | cons b s ih =>
    rw [List.orderedInsert]
    by_cases hab : tsLe a b
    · rw [if_pos hab]
      by_cases hat : a.ts = t <;> simp [List.filter_cons, hat]
    · rw [if_neg hab]
      by_cases hat : a.ts = t
      · have hbt : ¬ b.ts = t := by
          intro hb
          exact hab (le_of_eq (hat.symm ▸ hb ▸ rfl : a.ts = b.ts))
        simp [List.filter_cons, hbt, hat, ih]
      · by_cases hbt : b.ts = t <;> simp [List.filter_cons, hbt, hat, ih]

theorem filter_sortByTs_ts (t : ℚ) : ∀ (l : List Sample),
    (sortByTs l).filter (fun x => decide (x.ts = t)) =
      l.filter (fun x => decide (x.ts = t)) := by
  intro l
  induction l with
  | nil => rfl
  | cons a l ih =>
    show (List.orderedInsert tsLe a (List.insertionSort tsLe l)).filter _ = _
    rw [filter_orderedInsert_ts t a (List.insertionSort tsLe l)]
    by_cases hat : a.ts = t <;> simp [List.filter_cons, hat] <;> exact ih

/-- C5: for every record source, `extract_heart_rate_data` produces one
sample per record exactly when the record contains both a valid timestamp
field (instant-typed) and a valid heart-rate field (numeric and positive)
— records missing either contribute nothing; when zero samples result the
call fails with the `MissingDataError` message; otherwise the returned
sequence is a permutation of the extracted samples, sorted ascending by
timestamp, and the sort is stable: for every timestamp value, the samples
carrying it appear in their original extraction order. -/
theorem extractor_contract (records : List Record) :
    (∀ r : Record, (recordSample r).isSome = true ↔
        hasValidTimestamp r ∧ hasValidHeartRate r) ∧
    (extract_heart_rate_data records =
        Except.error "No valid heart rate data found in FIT file" ↔
      records.filterMap recordSample = []) ∧
    (∀ out, extract_heart_rate_data records = Except.ok out →
      out.Perm (records.filterMap recordSample) ∧
      List.Sorted tsLe out ∧
      ∀ t : ℚ, out.filter (fun x => decide (x.ts = t)) =
        (records.filterMap recordSample).filter (fun x => decide (x.ts = t))) := by
  refine ⟨recordSample_isSome, ?_, ?_⟩
  · unfold extract_heart_rate_data
    by_cases h : (records.filterMap recordSample).isEmpty
    · rw [if_pos h]
      simp only [List.isEmpty_iff] at h
      simp [h]
    · rw [if_neg h]
      simp only [List.isEmpty_iff] at h
      simp [h]
  · intro out hok
    unfold extract_heart_rate_data at hok
    by_cases h : (records.filterMap recordSample).isEmpty
    · rw [if_pos h] at hok
      exact Except.noConfusion hok
    · rw [if_neg h] at hok
      obtain rfl : out = sortByTs (records.filterMap recordSample) :=
        ((Except.ok.injEq _ _).mp hok).symm
      exact ⟨List.perm_insertionSort tsLe _, List.sorted_insertionSort tsLe _,
        fun t => filter_sortByTs_ts t _⟩

/-- Witness for C5: two complete records out of order and one incomplete
record extract to the two samples sorted ascending. -/
theorem extractor_contract_witness :
    extract_heart_rate_data demo_records = Except.ok [⟨0, 100⟩, ⟨60, 110⟩] ∧
    List.Sorted tsLe [(⟨0, 100⟩ : Sample), ⟨60, 110⟩] := by
  have h := (extractor_contract demo_records).2.2 [⟨0, 100⟩, ⟨60, 110⟩] (by decide)
  exact ⟨by decide, h.2.1⟩

/-- C7 counterexample: a record whose `heart_rate` field holds 300 bpm
(numeric, positive) passes the extractor, which enforces no 250 bpm upper
bound — so the produced sample violates the claimed `(0, 250]` invariant. -/
theorem extractor_sample_range_counterexample :
    extract_heart_rate_data overrange_records = Except.ok [⟨0, 300⟩] ∧
    ¬ ((300:ℚ) ≤ 250) := by
  constructor
  · decide
  · norm_num

/-- C7 (amended): every sample produced by `extract_heart_rate_data` has
a positive heart rate; the 250 bpm upper bound of the claimed `(0, 250]`
interval is not enforced by the extractor (it is enforced later by
`validate_heart_rate_data` inside the integrator). -/
theorem extractor_sample_positive (records : List Record) (out : List Sample)
    (hok : extract_heart_rate_data records = Except.ok out) :
    ∀ s ∈ out, 0 < s.hr := by
  intro s hs
  unfold extract_heart_rate_data at hok
  by_cases h : (records.filterMap recordSample).isEmpty
  · rw [if_pos h] at hok
    exact Except.noConfusion hok
  · rw [if_neg h] at hok
    obtain rfl : out = sortByTs (records.filterMap recordSample) :=
      ((Except.ok.injEq _ _).mp hok).symm
    have hs2 : s ∈ records.filterMap recordSample := mem_sortByTs.mp hs
    obtain ⟨r, hr, hrs⟩ := List.mem_filterMap.mp hs2
    exact recordSample_pos r s hrs

/-- Witness for the amended C7 at the first extracted demo sample. -/
theorem extractor_sample_positive_witness :
    0 < (Sample.mk 0 100).hr :=
  extractor_sample_positive demo_records [⟨0, 100⟩, ⟨60, 110⟩] (by decide)
    ⟨0, 100⟩ (by decide)

theorem foldl_flatStep_counts : ∀ (t : List Sample) (v : ℚ) (fs : Option ℚ)
    (k : ℕ) (acc : List FlatRun),
    (t.foldl flatStep ⟨some v, fs, k, acc⟩).flat_periods.map FlatRun.count =
      acc.map FlatRun.count ++ runCounts v k t := by
  intro t
  induction t with
  | nil => intro v fs k acc; simp [runCounts]
  | cons s t ih =>
    intro v fs k acc
    rw [List.foldl_cons]
    by_cases h : s.hr = v
    · have hc : (some s.hr = some v) := by rw [h]
      have hstep : flatStep ⟨some v, fs, k, acc⟩ s =
          ⟨some v, some (fs.getD s.ts), k + 1, acc⟩ := by
        unfold flatStep
        rw [if_pos hc]
      rw [hstep, ih, runCounts]
      rw [if_pos h]
    · have hc : ¬ (some s.hr = some v) := by
        intro hcc
        exact h (Option.some.injEq _ _ ▸ hcc)
      have hstep : flatStep ⟨some v, fs, k, acc⟩ s =
          ⟨some s.hr, none, 1,
            if 10 ≤ k then acc ++ [⟨some v, fs, s.ts, k⟩] else acc⟩ := by
        unfold flatStep
        rw [if_neg hc]
      rw [hstep, ih, runCounts]
      rw [if_neg h]
      by_cases hk : 10 ≤ k
      · rw [if_pos hk, if_pos hk]
        simp
      · rw [if_neg hk, if_neg hk]
        simp

theorem flatScan_counts (l : List Sample) :
    (flatScan l).map FlatRun.count =
      match l with
      | [] => []
      | s :: t => runCounts s.hr 1 t := by
  cases l with
  | nil => rfl
  | cons s t =>
    unfold flatScan
    rw [List.foldl_cons]
    have hstep : flatStep ⟨none, none, 0, []⟩ s = ⟨some s.hr, none, 1, []⟩ := by
      unfold flatStep
      rw [if_neg (by simp)]
      rfl
    rw [hstep]
    exact foldl_flatStep_counts t s.hr none 1 []

theorem chunksFrom_ne_nil : ∀ (t : List Sample) (v : ℚ) (k : ℕ),
    chunksFrom v k t ≠ [] := by
  intro t
  induction t with
  | nil => intro v k; simp [chunksFrom]
  | cons s t ih =>
    intro v k
    unfold chunksFrom
    by_cases h : s.hr = v
    · rw [if_pos h]
      exact ih v (k + 1)
    · rw [if_neg h]
      simp

theorem runCounts_eq_chunks : ∀ (t : List Sample) (v : ℚ) (k : ℕ),
    runCounts v k t =
      (chunksFrom v k t).dropLast.filter (fun c => decide (10 ≤ c)) := by
  intro t
  induction t with
  | nil => intro v k; simp [runCounts, chunksFrom]
  | cons s t ih =>
    intro v k
    unfold runCounts chunksFrom
    by_cases h : s.hr = v
    · rw [if_pos h, if_pos h, ih]
    · rw [if_neg h, if_neg h, ih]
      rcases hrest : chunksFrom s.hr 1 t with _ | ⟨c, cs⟩
      · exact absurd hrest (chunksFrom_ne_nil t s.hr 1)
      · rw [List.dropLast_cons₂, List.filter_cons]
        by_cases hk : 10 ≤ k
        · rw [if_pos hk, if_pos (by simpa using hk)]
          rfl
        · rw [if_neg hk, if_neg (by simpa using hk)]
          rfl

theorem flatScan_runLengths (l : List Sample) :
    (flatScan l).map FlatRun.count =
      (runLengths l).dropLast.filter (fun c => decide (10 ≤ c)) := by
  cases l with
  | nil => rfl
  | cons s t =>
    rw [flatScan_counts, runLengths]
    exact runCounts_eq_chunks t s.hr 1

/-- Inversion: the report returned by `validate_fit_file_data_integrity`
carries exactly the gap events and flat periods computed from the sorted
data. -/
theorem integrity_ok_inv {l : List Sample} {minp : ℕ} {mg : ℚ} {rep : IntegrityReport}
    (hok : validate_fit_file_data_integrity l minp mg = Except.ok rep) :
    rep.large_gaps = gapEvents (sortByTs l) mg ∧
    rep.flat_periods = flatScan (sortByTs l) := by
  unfold validate_fit_file_data_integrity at hok
  split at hok
  · exact Except.noConfusion hok
  · split at hok
    · exact Except.noConfusion hok
    · rename_i data hvd
      obtain ⟨rfl, -, -⟩ := validate_heart_rate_data_ok hvd
      have hrep := (Except.ok.injEq _ _).mp hok
      rw [← hrep]
      exact ⟨rfl, rfl⟩

/-- C8 (amended): whenever `validate_fit_file_data_integrity` returns a
report, `large_gaps` holds one `GapEvent` for each consecutive pair of
the sorted data whose time delta exceeds `max_gap_minutes`, and the
recorded flat-run counts are exactly the lengths of those maximal runs of
at least 10 consecutive equal heart-rate samples that are followed by a
sample with a different value — a maximal run that reaches the end of the
data is never recorded (no flush after the loop), which is the one
correction to the claim. -/
theorem auditor_events (l : List Sample) (min_data_points : ℕ)
    (max_gap_minutes : ℚ) (rep : IntegrityReport)
    (hok : validate_fit_file_data_integrity l min_data_points max_gap_minutes =
      Except.ok rep) :
    rep.large_gaps = gapEvents (sortByTs l) max_gap_minutes ∧
    rep.flat_periods.map FlatRun.count =
      (runLengths (sortByTs l)).dropLast.filter (fun c => decide (10 ≤ c)) := by
  obtain ⟨h1, h2⟩ := integrity_ok_inv hok
  exact ⟨h1, by rw [h2, flatScan_runLengths]⟩

set_option maxHeartbeats 2000000 in
/-- C8 counterexample: a sequence that is one maximal run of 12 identical
heart-rate samples (one minute apart, so `min_data_points = 2` is met)
yields a report with NO `FlatRun` at all, because the loop never flushes
a run that reaches the end of the data — refuting "a run of 12 identical
heart-rate samples yields one FlatRun with count == 12" as stated. -/
theorem auditor_flat_run_counterexample :
    flat12_samples.length = 12 ∧
    (flat12_samples.all fun s => decide (s.hr = 100)) = true ∧
    List.Sorted tsLe flat12_samples ∧
    Except.map (fun r => r.flat_periods)
        (validate_fit_file_data_integrity flat12_samples 2 60) = Except.ok [] := by
  refine ⟨by decide, by decide, by decide, by decide⟩

set_option maxHeartbeats 1000000 in
/-- The combined demo sequence is already sorted, so sorting fixes it. -/
theorem gapflat_sorted : sortByTs gapflat_samples = gapflat_samples :=
  List.Sorted.insertionSort_eq (by decide)

/-- The combined demo sequence has exactly one gap exceeding 60 minutes
(the 90-minute jump from t=660s to t=6060s). -/
theorem gapflat_gap_count : (gapEvents gapflat_samples 60).length = 1 := by
  norm_num [gapEvents, gapflat_samples, flat12_samples, List.filterMap_cons]

set_option maxHeartbeats 2000000 in
/-- Witness for the amended C8: twelve identical samples terminated by a
differing sample after a 90-minute gap give one FlatRun of count 12 and
exactly one GapEvent. -/
theorem auditor_events_witness :
    Except.map (fun r => r.flat_periods.map FlatRun.count)
        (validate_fit_file_data_integrity gapflat_samples 2 60) = Except.ok [12] ∧
    Except.map (fun r => r.large_gaps.length)
        (validate_fit_file_data_integrity gapflat_samples 2 60) = Except.ok 1 := by
  cases hok : validate_fit_file_data_integrity gapflat_samples 2 60 with
  | error e =>
    have hko : isOkE (validate_fit_file_data_integrity gapflat_samples 2 60) = true := by
      decide
    rw [hok] at hko
    exact absurd hko (by simp [isOkE])
  | ok rep =>
    have h := auditor_events gapflat_samples 2 60 rep hok
    constructor
    · simp only [Except.map]
      rw [h.2, gapflat_sorted]
      decide
    · simp only [Except.map]
      rw [h.1, gapflat_sorted, gapflat_gap_count]

/-- C9: `calculate_data_quality_score` equals 1.0 minus a density penalty
(0.2 when the sample density is below 0.5 samples/minute, else 0.1 when
below 1.0 samples/minute, else 0 — stated multiplicatively as
`data_points < duration/2` etc., which for positive durations is the
density condition and correctly yields no penalty when the duration is
zero), minus `min(0.3, 0.1 * gaps)`, minus `min(0.3, 0.05 * warnings)`,
clamped to `[0, 1]`. -/
theorem quality_score_formula (data_points : ℕ) (duration_minutes : ℚ)
    (large_gaps : List GapEvent) (warnings : List String) :
    calculate_data_quality_score data_points duration_minutes large_gaps warnings =
      max 0 (min 1 (1 -
        (if (data_points : ℚ) < duration_minutes / 2 then 0.2
         else if (data_points : ℚ) < duration_minutes then 0.1 else 0) -
        min 0.3 (0.1 * (large_gaps.length : ℚ)) -
        min 0.3 (0.05 * (warnings.length : ℚ)))) := by
  unfold calculate_data_quality_score
  rw [mul_comm ((large_gaps.length : ℚ)) (0.1 : ℚ),
    mul_comm ((warnings.length : ℚ)) (0.05 : ℚ)]
  by_cases hd : 0 < duration_minutes
  · rw [if_pos hd]
    by_cases h1 : (data_points : ℚ) / duration_minutes < 0.5
    · have h1a : (data_points : ℚ) < duration_minutes / 2 := by
        rw [div_lt_iff₀ hd] at h1
        linarith
      rw [if_pos h1, if_pos h1a]
    · by_cases h2 : (data_points : ℚ) / duration_minutes < 1
      · have h1a : ¬ ((data_points : ℚ) < duration_minutes / 2) := by
          intro hc
          apply h1
          rw [div_lt_iff₀ hd]
          linarith
        have h2a : (data_points : ℚ) < duration_minutes := by
          rw [div_lt_iff₀ hd] at h2
          linarith
        rw [if_neg h1, if_pos h2, if_neg h1a, if_pos h2a]
      · have h1a : ¬ ((data_points : ℚ) < duration_minutes / 2) := by
          intro hc
          apply h1
          rw [div_lt_iff₀ hd]
          linarith
        have h2a : ¬ ((data_points : ℚ) < duration_minutes) := by
          intro hc
          apply h2
          rw [div_lt_iff₀ hd]
          linarith
        rw [if_neg h1, if_neg h2, if_neg h1a, if_neg h2a, sub_zero]
  · rw [if_neg hd]
    push_neg at hd
    have hdp : (0:ℚ) ≤ (data_points : ℚ) := Nat.cast_nonneg _
    have h1a : ¬ ((data_points : ℚ) < duration_minutes / 2) := by
      intro hc
      have : duration_minutes / 2 ≤ 0 := by linarith
      linarith
    have h2a : ¬ ((data_points : ℚ) < duration_minutes) := by
      intro hc
      linarith
    rw [if_neg h1a, if_neg h2a, sub_zero]

theorem pyRound_ge (q : ℚ) : ⌊q⌋ ≤ pyRound q := by
  unfold pyRound
  split_ifs <;> omega

theorem pyRound_le (q : ℚ) : pyRound q ≤ ⌊q⌋ + 1 := by
  unfold pyRound
  split_ifs <;> omega

theorem pyRound_mono {x y : ℚ} (h : x ≤ y) : pyRound x ≤ pyRound y := by
  have hf : ⌊x⌋ ≤ ⌊y⌋ := Int.floor_le_floor h
  rcases lt_or_eq_of_le hf with hlt | heq
  · calc pyRound x ≤ ⌊x⌋ + 1 := pyRound_le x
      _ ≤ ⌊y⌋ := by omega
      _ ≤ pyRound y := pyRound_ge y
  · unfold pyRound
    rw [← heq]
    split_ifs <;> first | omega | (exfalso; linarith)

theorem sortedIntensities_sorted (l : List ℚ) :
    List.Sorted (fun a b : ℚ => a ≤ b) (sortedIntensities l) :=
  List.sorted_insertionSort _ _

theorem mem_sortedIntensities {l : List ℚ} {x : ℚ} :
    x ∈ sortedIntensities l ↔ x ∈ l := by
  unfold sortedIntensities
  rw [List.mem_insertionSort, List.mem_dedup]

theorem mkZone_no_swap (hrr resting cur next : ℚ)
    (h : pyRound (hrr * cur + resting) ≤ pyRound (hrr * next + resting)) :
    mkZone hrr resting cur next =
      ⟨pyTrunc (cur * 100), pyTrunc (next * 100),
        pyRound (hrr * cur + resting), pyRound (hrr * next + resting)⟩ := by
  unfold mkZone
  rw [if_neg (not_lt.mpr h)]

theorem zonesFrom_eq_spec (hrr resting : ℚ) (hh : 0 ≤ hrr) :
    ∀ l, List.Chain' (fun a b : ℚ => a ≤ b) l → (∀ i ∈ l, i ≤ 1) →
      zonesFrom hrr resting l = zonesSpec hrr resting l := by
  intro l
  induction l with
  | nil => intro _ _; rfl
  | cons c t ih =>
    intro hch hle
    cases t with
    | nil =>
      have hc1 : c ≤ 1 := hle c (List.mem_singleton_self c)
      have hmono : pyRound (hrr * c + resting) ≤ pyRound (hrr * 1 + resting) :=
        pyRound_mono (add_le_add_right (mul_le_mul_of_nonneg_left hc1 hh) resting)
      have he1 : zonesFrom hrr resting [c] = [mkZone hrr resting c 1] := rfl
      rw [he1, mkZone_no_swap hrr resting c 1 hmono]
      rfl
    | cons c2 rest =>
      obtain ⟨hcc, hch2⟩ := List.chain'_cons.mp hch
      have hmono : pyRound (hrr * c + resting) ≤ pyRound (hrr * c2 + resting) :=
        pyRound_mono (add_le_add_right (mul_le_mul_of_nonneg_left hcc hh) resting)
      have hrec := ih hch2 (fun i hi => hle i (List.mem_cons_of_mem c hi))
      have he1 : zonesFrom hrr resting (c :: c2 :: rest) =
          mkZone hrr resting c c2 :: zonesFrom hrr resting (c2 :: rest) := rfl
      have he2 : zonesSpec hrr resting (c :: c2 :: rest) =
          ⟨pyTrunc (c * 100), pyTrunc (c2 * 100),
            pyRound (hrr * c + resting), pyRound (hrr * c2 + resting)⟩ ::
          zonesSpec hrr resting (c2 :: rest) := rfl
      rw [he1, he2, mkZone_no_swap hrr resting c c2 hmono, hrec]

/-- Later zones overwrite earlier ones only on key collision: when every
computed zone has a fresh key, folding the dict assignments just appends,
so the dict lists the zones in loop order. -/
theorem foldl_dictInsertZone_fresh : ∀ (l acc : List Zone),
    (∀ z ∈ l, ∀ w ∈ acc, sameZoneKey w z = false) →
    List.Pairwise (fun w z => sameZoneKey w z = false) l →
    l.foldl dictInsertZone acc = acc ++ l := by
  intro l
  induction l with
  | nil => intro acc _ _; simp
  | cons z t ih =>
    intro acc hfresh hpw
    rw [List.foldl_cons]
    have hnone : acc.any (fun w => sameZoneKey w z) = false := by
      rw [List.any_eq_false]
      intro w hw
      rw [hfresh z (List.mem_cons_self z t) w hw]
      simp
    have hstep : dictInsertZone acc z = acc ++ [z] := by
      unfold dictInsertZone
      rw [if_neg (by simp [hnone])]
    rw [hstep, ih (acc ++ [z]) ?_ ?_]
    · simp
    · intro y hy w hw
      rcases List.mem_append.mp hw with hw | hw
      · exact hfresh y (List.mem_cons_of_mem z hy) w hw
      · rcases List.mem_singleton.mp hw with rfl
        exact (List.pairwise_cons.mp hpw).1 y hy
    · exact (List.pairwise_cons.mp hpw).2

/-- Discharges the five validation guards of `calculate_karvonen_zones`,
reducing the call to the heart-rate-reserve test and the zone dict. -/
theorem karvonen_reduce (age resting : ℤ) (intens : List ℚ) (maxHr : Option ℤ)
    (hage : 0 < age) (hrest : 0 < resting) (hne : intens ≠ [])
    (hin : ∀ i ∈ intens, 0 ≤ i ∧ i ≤ 1) (hmax : ¬ (maxHr.getD 1 ≤ 0)) :
    calculate_karvonen_zones age resting intens maxHr =
      (if karvonenMhr age maxHr - (resting : ℚ) < 0 then
        Except.error "Calculated Max Heart Rate cannot be less than Resting Heart Rate."
      else
        Except.ok (zonesDict (karvonenMhr age maxHr - (resting : ℚ)) ((resting : ℤ) : ℚ)
          (sortedIntensities intens))) := by
  unfold calculate_karvonen_zones
  rw [if_neg (not_le.mpr hage), if_neg (not_le.mpr hrest),
    if_neg (by simpa using hne), if_neg (not_not_intro hin), if_neg hmax]

/-- C10 (amended): for every valid age, resting heart rate and non-empty
list of intensity fractions in [0, 1] (and positive measured maximum when
supplied), `calculate_karvonen_zones` uses the measured maximum when
supplied and `208 - 0.7 * age` otherwise, and fails when the heart-rate
reserve `mhr - resting` is negative; otherwise the per-intensity zones —
lower bound `round(hrr*intensity + resting)`, upper bound the next
intensity's boundary in ascending sorted-deduplicated order, the topmost
at intensity 1.0 — are assigned into a dict keyed by the truncated
percentage pair, a later zone overwriting an earlier one whose key
collides; only when all keys are distinct does the result hold one zone
per intensity as originally claimed (the defensive swap in the source
never fires because rounding is monotone). -/
theorem karvonen_zones_spec (age resting : ℤ) (intens : List ℚ) (maxHr : Option ℤ)
    (hage : 0 < age) (hrest : 0 < resting) (hne : intens ≠ [])
    (hin : ∀ i ∈ intens, 0 ≤ i ∧ i ≤ 1)
    (hmax : ∀ m, maxHr = some m → 0 < m) :
    (karvonenMhr age maxHr - (resting : ℚ) < 0 →
      isOkE (calculate_karvonen_zones age resting intens maxHr) = false) ∧
    (0 ≤ karvonenMhr age maxHr - (resting : ℚ) →
      calculate_karvonen_zones age resting intens maxHr =
        Except.ok ((zonesSpec (karvonenMhr age maxHr - (resting : ℚ)) ((resting : ℤ) : ℚ)
            (sortedIntensities intens)).foldl dictInsertZone []) ∧
      (List.Pairwise (fun w z => sameZoneKey w z = false)
          (zonesSpec (karvonenMhr age maxHr - (resting : ℚ)) ((resting : ℤ) : ℚ)
            (sortedIntensities intens)) →
        calculate_karvonen_zones age resting intens maxHr =
          Except.ok (zonesSpec (karvonenMhr age maxHr - (resting : ℚ)) ((resting : ℤ) : ℚ)
            (sortedIntensities intens)))) := by
  have h5 : ¬ (maxHr.getD 1 ≤ 0) := by
    cases maxHr with
    | none => simp
    | some m => simpa using hmax m rfl
  have hred := karvonen_reduce age resting intens maxHr hage hrest hne hin h5
  constructor
  · intro hneg
    rw [hred, if_pos hneg]
    rfl
  · intro hpos
    have hzs := zonesFrom_eq_spec (karvonenMhr age maxHr - (resting : ℚ)) ((resting : ℤ) : ℚ)
      hpos (sortedIntensities intens)
      ((sortedIntensities_sorted intens).chain')
      (fun i hi => (hin i (mem_sortedIntensities.mp hi)).2)
    have hok : calculate_karvonen_zones age resting intens maxHr =
        Except.ok ((zonesSpec (karvonenMhr age maxHr - (resting : ℚ)) ((resting : ℤ) : ℚ)
          (sortedIntensities intens)).foldl dictInsertZone []) := by
      rw [hred, if_neg (not_lt.mpr hpos)]
      unfold zonesDict
      rw [hzs]
    refine ⟨hok, fun hdist => ?_⟩
    rw [hok, foldl_dictInsertZone_fresh _ []
      (fun z _ w hw => absurd hw (List.not_mem_nil w)) hdist, List.nil_append]

theorem karvonen_witness_si : sortedIntensities [(1:ℚ)/2] = [(1:ℚ)/2] := by
  simp [sortedIntensities, List.insertionSort]

theorem karvonen_floor1 : (⌊(127 * ((1:ℚ)/2) + 60 : ℚ)⌋ : ℤ) = 123 := by
  rw [Int.floor_eq_iff]
  norm_num

theorem karvonen_pyRound1 : pyRound (127 * ((1:ℚ)/2) + 60) = 124 := by
  unfold pyRound
  rw [karvonen_floor1]
  norm_num
  decide

theorem karvonen_floor2 : (⌊(127 * (1:ℚ) + 60 : ℚ)⌋ : ℤ) = 187 := by
  norm_num

theorem karvonen_pyRound2 : pyRound (127 * (1:ℚ) + 60) = 187 := by
  unfold pyRound
  rw [karvonen_floor2]
  norm_num

/-- Witness for the amended C10, the spec's example: age 30, resting 60,
no measured maximum gives `mhr = 187` and `hrr = 127`; the single
intensity 0.5 has a fresh key, so the mapping holds its one zone 124-187
(lower bound `round(127*0.5 + 60) = 124`). -/
theorem karvonen_zones_spec_witness :
    karvonenMhr 30 none = 187 ∧
    karvonenMhr 30 none - ((60:ℤ) : ℚ) = 127 ∧
    calculate_karvonen_zones 30 60 [(1:ℚ)/2] none =
      Except.ok [⟨50, 100, 124, 187⟩] := by
  have hmhr : karvonenMhr 30 none = 187 := by norm_num [karvonenMhr]
  have hhrr : karvonenMhr 30 none - ((60:ℤ) : ℚ) = 127 := by rw [hmhr]; norm_num
  have hpair : List.Pairwise (fun w z => sameZoneKey w z = false)
      (zonesSpec (karvonenMhr 30 none - ((60:ℤ) : ℚ)) ((60:ℤ) : ℚ)
        (sortedIntensities [(1:ℚ)/2])) := by
    rw [hhrr, karvonen_witness_si]
    exact List.pairwise_singleton _ _
  have h := ((karvonen_zones_spec 30 60 [(1:ℚ)/2] none (by decide) (by decide)
    (by simp) (by norm_num) (fun m hm => Option.noConfusion hm)).2
    (by rw [hhrr]; norm_num)).2 hpair
  refine ⟨hmhr, hhrr, ?_⟩
  rw [h, hhrr, karvonen_witness_si]
  have hz : zonesSpec 127 ((60:ℤ) : ℚ) [(1:ℚ)/2] =
      [⟨pyTrunc (((1:ℚ)/2) * 100), pyTrunc ((1:ℚ) * 100),
        pyRound (127 * ((1:ℚ)/2) + ((60:ℤ) : ℚ)), pyRound (127 * 1 + ((60:ℤ) : ℚ))⟩] := rfl
  rw [hz]
  rw [show ((60:ℤ) : ℚ) = 60 from by norm_num]
  rw [karvonen_pyRound1, karvonen_pyRound2]
  norm_num [pyTrunc]


/-- The colliding intensities are distinct and already ascending, so the
sorted-deduplicated order keeps all three. -/
theorem collide_si : sortedIntensities collide_intensities = [0, 6/1000, 9/1000] := by
  unfold sortedIntensities collide_intensities
  rw [List.dedup_eq_self.mpr (by norm_num [List.nodup_cons])]
  exact List.Sorted.insertionSort_eq (by norm_num [List.sorted_cons])

theorem collide_pyRound0 : pyRound (100 * (0:ℚ) + 60) = 60 := by
  unfold pyRound
  norm_num

theorem collide_floor6 : (⌊(100 * ((6:ℚ)/1000) + 60 : ℚ)⌋ : ℤ) = 60 := by
  rw [Int.floor_eq_iff]
  norm_num

theorem collide_pyRound6 : pyRound (100 * ((6:ℚ)/1000) + 60) = 61 := by
  unfold pyRound
  rw [collide_floor6]
  norm_num

theorem collide_floor9 : (⌊(100 * ((9:ℚ)/1000) + 60 : ℚ)⌋ : ℤ) = 60 := by
  rw [Int.floor_eq_iff]
  norm_num

theorem collide_pyRound9 : pyRound (100 * ((9:ℚ)/1000) + 60) = 61 := by
  unfold pyRound
  rw [collide_floor9]
  norm_num

theorem collide_pyRound1 : pyRound (100 * (1:ℚ) + 60) = 160 := by
  unfold pyRound
  norm_num

theorem collide_trunc6 : pyTrunc (((6:ℚ)/1000) * 100) = 0 := by
  unfold pyTrunc
  rw [if_neg (by norm_num), Int.floor_eq_iff]
  norm_num

theorem collide_trunc9 : pyTrunc (((9:ℚ)/1000) * 100) = 0 := by
  unfold pyTrunc
  rw [if_neg (by norm_num), Int.floor_eq_iff]
  norm_num

/-- The three zones the loop computes for the colliding intensities with
`hrr = 100`, resting 60: the first two share the key pair (0, 0). -/
theorem collide_zonesFrom :
    zonesFrom 100 60 [0, 6/1000, 9/1000] =
      [⟨0, 0, 60, 61⟩, ⟨0, 0, 61, 61⟩, ⟨0, 100, 61, 160⟩] := by
  have he : zonesFrom 100 60 [0, 6/1000, 9/1000] =
      [mkZone 100 60 0 (6/1000), mkZone 100 60 (6/1000) (9/1000),
        mkZone 100 60 (9/1000) 1] := rfl
  rw [he,
    mkZone_no_swap 100 60 0 (6/1000) (by rw [collide_pyRound0, collide_pyRound6]; norm_num),
    mkZone_no_swap 100 60 (6/1000) (9/1000)
      (by rw [collide_pyRound6, collide_pyRound9]),
    mkZone_no_swap 100 60 (9/1000) 1 (by rw [collide_pyRound9, collide_pyRound1]; norm_num),
    collide_pyRound0, collide_pyRound6, collide_pyRound9, collide_pyRound1,
    collide_trunc6, collide_trunc9]
  norm_num [pyTrunc]

/-- C10 counterexample: for the three validated intensities 0, 0.006 and
0.009 (age 30, resting 60, measured maximum 160, so hrr = 100), the dict
keys of the first two zones both read "0%-0%", so the returned mapping
has only two entries — and the claimed zone for intensity 0 (lower bound
`round(100*0 + 60) = 60`) is absent, overwritten by the zone for
intensity 0.006 — refuting "for each intensity ... the zone's lower bound
is round(hrr*intensity + resting_hr)" as stated. -/
theorem karvonen_key_collision_counterexample :
    (sortedIntensities collide_intensities).length = 3 ∧
    calculate_karvonen_zones 30 60 collide_intensities (some 160) =
      Except.ok [⟨0, 0, 61, 61⟩, ⟨0, 100, 61, 160⟩] ∧
    decide ((⟨0, 0, 60, 61⟩ : Zone) ∈
      ([⟨0, 0, 61, 61⟩, ⟨0, 100, 61, 160⟩] : List Zone)) = false := by
  have hred := karvonen_reduce 30 60 collide_intensities (some 160)
    (by decide) (by decide) (by simp [collide_intensities])
    (by norm_num [collide_intensities]) (by norm_num)
  have hhrr : karvonenMhr 30 (some 160) - ((60:ℤ) : ℚ) = 100 := by
    norm_num [karvonenMhr]
  refine ⟨by rw [collide_si]; rfl, ?_, by decide⟩
  rw [hred, hhrr, if_neg (by norm_num), collide_si]
  unfold zonesDict
  rw [show ((60:ℤ) : ℚ) = 60 from by norm_num, collide_zonesFrom]
  decide

end FitCalories

